import Mathlib

/-!
Verification of the lab_device flow-network model (Stream / Device / Mixer / Reactor).

Streams are identified by a natural number standing for the identity of the
shared heap object; the mass_flow field of every stream is gathered in one
map from identifiers to rationals (rationals model the exact real arithmetic
of the double computations; every division appearing in the programs output
values is exact at the inputs of interest). Each mutating method of the
source is translated to a function returning a pair of an optional error and
the post-state, so that a thrown exception (the Option is some) still carries
whatever mutations happened before the throw, exactly as in the source where
streams are heap objects.
-/

namespace LabDevice

abbrev StreamId := Nat

abbrev Flows := StreamId → ℚ

/-- Error values thrown by the source: a thrown const char pointer literal, a
thrown std::string, or the std::out_of_range raised by vector::at. -/
inductive DevErr where
  | cstr (s : String)
  | str (s : String)
  | outOfRange
deriving DecidableEq

/-- Conversion of a C++ int to size_t (64-bit unsigned), as performed by the
usual arithmetic conversions in comparisons such as inputs.size() < inputAmount:
reduction modulo 2 to the 64. -/
def toSizeT (n : Int) : Nat := (n % (2 ^ 64 : Int)).toNat

/-- The constant MIXER_OUTPUTS = 1 of the source. -/
def MIXER_OUTPUTS : Int := 1

/-- State of a Mixer object: the field inputsCount embeds the private field
of the class (spelled with underscores in the source), and inputs/outputs are
the two stream vectors inherited from Device. The inherited capacity fields
inputAmount/outputAmount are never assigned nor read by any Mixer method, so
they are omitted. -/
structure Mixer where
  inputsCount : Int
  inputs : List StreamId
  outputs : List StreamId
deriving DecidableEq

/-- The Mixer constructor: stores the requested input capacity, both stream
vectors start empty. -/
def Mixer.init (inputs_count : Int) : Mixer :=
  { inputsCount := inputs_count, inputs := [], outputs := [] }

/-- Mixer::addInput: throws the std::string value if the size already equals
the capacity (compared after int to size_t conversion), otherwise appends. -/
def Mixer.addInput (d : Mixer) (s : StreamId) : Option DevErr × Mixer :=
  if d.inputs.length = toSizeT d.inputsCount then
    (some (DevErr.str "Too much inputs"), d)
  else
    (none, { d with inputs := d.inputs ++ [s] })

/-- Mixer::addOutput: throws once the size equals MIXER_OUTPUTS, otherwise
appends. -/
def Mixer.addOutput (d : Mixer) (s : StreamId) : Option DevErr × Mixer :=
  if d.outputs.length = toSizeT MIXER_OUTPUTS then
    (some (DevErr.str "Too much outputs"), d)
  else
    (none, { d with outputs := d.outputs ++ [s] })

/-- The write loop shared by both updateOutputs bodies of Mixer: every stream
of the list receives the value v via setMassFlow, in order. -/
def writeAll : List StreamId → ℚ → Flows → Flows
  | [], _, fl => fl
  | o :: rest, m, fl => writeAll rest m (Function.update fl o m)

/-- Mixer::updateOutputs: sums the mass flows of the inputs, throws the
std::string value when the outputs vector is empty (before any write), else
writes the sum divided by the number of outputs to every output stream. -/
def Mixer.updateOutputs (d : Mixer) (fl : Flows) : Option DevErr × Flows :=
  let sum_mass_flow : ℚ := (d.inputs.map fl).sum
  if d.outputs = [] then
    (some (DevErr.str "Should set outputs before update"), fl)
  else
    (none, writeAll d.outputs (sum_mass_flow / (d.outputs.length : ℚ)) fl)

/-- Accessor Mixer::getInputs: returns the inputs vector by value. -/
def Mixer.getInputs (d : Mixer) : List StreamId := d.inputs

/-- Accessor Mixer::getOutputs: returns the outputs vector by value. -/
def Mixer.getOutputs (d : Mixer) : List StreamId := d.outputs

/-- State of a Reactor object: the two capacity fields inherited from Device
and the two stream vectors. -/
structure Reactor where
  inputAmount : Int
  outputAmount : Int
  inputs : List StreamId
  outputs : List StreamId
deriving DecidableEq

/-- Reactor::Reactor as written in src/unnamed/part_000: one input, and
outputAmount is 2 for a double reactor, else 1. -/
def Reactor.init (isDoubleReactor : Bool) : Reactor :=
  { inputAmount := 1
    outputAmount := if isDoubleReactor then 2 else 1
    inputs := []
    outputs := [] }

/-- The field assignments performed by Reactor::Reactor as written in
src/device.cpp, recorded as the pair (inputAmount, outputAmount); none marks
a field the constructor never assigns, hence indeterminate. The else branch
of that copy assigns inputAmount a second time instead of outputAmount. -/
def Reactor.initDevCpp (isDoubleReactor : Bool) : Option Int × Option Int :=
  if isDoubleReactor then (some 1, some 2) else (some 1, none)

/-- Device::addInput, used by Reactor: appends while size < inputAmount
(compared after int to size_t conversion), else throws the char pointer
literal. -/
def Reactor.addInput (d : Reactor) (s : StreamId) : Option DevErr × Reactor :=
  if d.inputs.length < toSizeT d.inputAmount then
    (none, { d with inputs := d.inputs ++ [s] })
  else
    (some (DevErr.cstr "INPUT STREAM LIMIT!"), d)

/-- Device::addOutput, used by Reactor: symmetric to addInput. -/
def Reactor.addOutput (d : Reactor) (s : StreamId) : Option DevErr × Reactor :=
  if d.outputs.length < toSizeT d.outputAmount then
    (none, { d with outputs := d.outputs ++ [s] })
  else
    (some (DevErr.cstr "OUTPUT STREAM LIMIT!"), d)

/-- Accessor Reactor::getInputs (inherited from Device): by-value return. -/
def Reactor.getInputs (d : Reactor) : List StreamId := d.inputs

/-- Accessor Reactor::getOutputs (inherited from Device): by-value return. -/
def Reactor.getOutputs (d : Reactor) : List StreamId := d.outputs

/-- The write loop of Reactor::updateOutputs: for i in [0, count) the stream
outputs.at(i) receives the value v; at raises std::out_of_range as soon as i
reaches the end of the vector, keeping the writes already performed. -/
def writeOuts (v : ℚ) : Nat → List StreamId → Flows → Option DevErr × Flows
  | 0, _, fl => (none, fl)
  | _ + 1, [], fl => (some DevErr.outOfRange, fl)
  | n + 1, o :: rest, fl => writeOuts v n rest (Function.update fl o v)

/-- Reactor::updateOutputs as written in src/unnamed/part_000: reads the mass
flow of inputs.at(0) (std::out_of_range when no input is connected), then
writes inputMass * (1.0/outputAmount) to the first outputAmount output slots;
the loop runs zero times when outputAmount is not positive. -/
def Reactor.updateOutputs (d : Reactor) (fl : Flows) : Option DevErr × Flows :=
  match d.inputs.head? with
  | none => (some DevErr.outOfRange, fl)
  | some i0 => writeOuts (fl i0 * (1 / (d.outputAmount : ℚ))) d.outputAmount.toNat d.outputs fl

/-- Reactor::updateOutputs as written in src/device.cpp: identical control
flow, but the split factor is the integer quotient 1/outputAmount, converted
to double only after the truncating division. -/
def Reactor.updateOutputsDevCpp (d : Reactor) (fl : Flows) : Option DevErr × Flows :=
  match d.inputs.head? with
  | none => (some DevErr.outOfRange, fl)
  | some i0 =>
      writeOuts (fl i0 * (((1 / d.outputAmount : Int) : ℚ))) d.outputAmount.toNat d.outputs fl

/-- A device is a Mixer or a Reactor (the two concrete variants of the
abstract Device class). -/
inductive Dev where
  | mixer : Mixer → Dev
  | reactor : Reactor → Dev
deriving DecidableEq

/-- The operations of the public device interface that can alter state. -/
inductive Op where
  | addInput (s : StreamId)
  | addOutput (s : StreamId)
  | update
deriving DecidableEq

/-- The inputs vector of either variant. -/
def Dev.inputsList : Dev → List StreamId
  | Dev.mixer d => d.inputs
  | Dev.reactor d => d.inputs

/-- The outputs vector of either variant. -/
def Dev.outputsList : Dev → List StreamId
  | Dev.mixer d => d.outputs
  | Dev.reactor d => d.outputs

/-- The effective input capacity bound of a device: the stored count for a
Mixer, the inputAmount field for a Reactor. -/
def Dev.inputCap : Dev → Int
  | Dev.mixer d => d.inputsCount
  | Dev.reactor d => d.inputAmount

/-- The effective output capacity bound of a device: the MIXER_OUTPUTS
constant for a Mixer, the outputAmount field for a Reactor. -/
def Dev.outputCap : Dev → Int
  | Dev.mixer _ => MIXER_OUTPUTS
  | Dev.reactor d => d.outputAmount

/-- getInputs of either variant: a by-value snapshot of the inputs vector. -/
def Dev.getInputs (d : Dev) : List StreamId := d.inputsList

/-- getOutputs of either variant: a by-value snapshot of the outputs vector. -/
def Dev.getOutputs (d : Dev) : List StreamId := d.outputsList

/-- updateOutputs of either variant (the part_000 Reactor body). -/
def Dev.updateOutputs (d : Dev) (fl : Flows) : Option DevErr × Flows :=
  match d with
  | Dev.mixer m => m.updateOutputs fl
  | Dev.reactor r => r.updateOutputs fl

/-- One interface call on a device together with the shared stream state:
returns the raised error if any, the device afterwards, and the stream flows
afterwards. -/
def Dev.step (d : Dev) (fl : Flows) : Op → Option DevErr × Dev × Flows
  | Op.addInput s =>
      match d with
      | Dev.mixer m =>
          let r := m.addInput s
          (r.1, Dev.mixer r.2, fl)
      | Dev.reactor rx =>
          let r := rx.addInput s
          (r.1, Dev.reactor r.2, fl)
  | Op.addOutput s =>
      match d with
      | Dev.mixer m =>
          let r := m.addOutput s
          (r.1, Dev.mixer r.2, fl)
      | Dev.reactor rx =>
          let r := rx.addOutput s
          (r.1, Dev.reactor r.2, fl)
  | Op.update =>
      let r := Dev.updateOutputs d fl
      (r.1, d, r.2)

/-- A sequence of interface calls by a caller that catches every exception
and continues: collects the per-call error outcomes and the final state. -/
def Dev.run : Dev → Flows → List Op → List (Option DevErr) × Dev × Flows
  | d, fl, [] => ([], d, fl)
  | d, fl, op :: rest =>
      let r := Dev.step d fl op
      let rr := Dev.run r.2.1 r.2.2 rest
      (r.1 :: rr.1, rr.2)

/-- The stream arguments of the addInput calls of a call sequence, in order. -/
def opsInputs : List Op → List StreamId
  | [] => []
  | Op.addInput s :: rest => s :: opsInputs rest
  | Op.addOutput _ :: rest => opsInputs rest
  | Op.update :: rest => opsInputs rest

/-- The stream arguments of the addOutput calls of a call sequence, in order. -/
def opsOutputs : List Op → List StreamId
  | [] => []
  | Op.addInput _ :: rest => opsOutputs rest
  | Op.addOutput s :: rest => s :: opsOutputs rest
  | Op.update :: rest => opsOutputs rest

/-- The capacity invariant of the data model: each stream vector is no longer
than the corresponding capacity bound. -/
def devInv (d : Dev) : Prop :=
  (d.inputsList.length : Int) ≤ d.inputCap ∧ (d.outputsList.length : Int) ≤ d.outputCap

instance (d : Dev) : Decidable (devInv d) := by
  unfold devInv
  infer_instance

theorem writeAll_apply (l : List StreamId) (m : ℚ) (fl : Flows) (s : StreamId) :
    writeAll l m fl s = if s ∈ l then m else fl s := by
  induction l generalizing fl with
  | nil => simp [writeAll]
  | cons o rest ih =>
      simp only [writeAll, ih, Function.update_apply, List.mem_cons]
      by_cases h1 : s ∈ rest <;> by_cases h2 : s = o <;> simp [h1, h2]

theorem writeOuts_fst_eq_none (v : ℚ) (n : Nat) (l : List StreamId) (fl : Flows) :
    (writeOuts v n l fl).1 = none ↔ n ≤ l.length := by
  induction n generalizing l fl with
  | zero => simp [writeOuts]
  | succ k ih =>
      cases l with
      | nil => simp [writeOuts]
      | cons o rest => simpa [writeOuts] using ih rest (Function.update fl o v)

theorem writeOuts_fst_eq_some (v : ℚ) (n : Nat) (l : List StreamId) (fl : Flows)
    (h : l.length < n) : (writeOuts v n l fl).1 = some DevErr.outOfRange := by
  induction n generalizing l fl with
  | zero => omega
  | succ k ih =>
      cases l with
      | nil => simp [writeOuts]
      | cons o rest =>
          simp only [writeOuts]
          exact ih rest (Function.update fl o v) (by simpa using h)

theorem writeOuts_snd_apply (v : ℚ) (n : Nat) (l : List StreamId) (fl : Flows)
    (h : n ≤ l.length) (s : StreamId) :
    (writeOuts v n l fl).2 s = if s ∈ l.take n then v else fl s := by
  induction n generalizing l fl with
  | zero => simp [writeOuts]
  | succ k ih =>
      cases l with
      | nil => simp at h
      | cons o rest =>
          simp only [writeOuts, List.take_succ_cons, List.mem_cons]
          rw [ih rest (Function.update fl o v) (by simpa using h)]
          by_cases h1 : s ∈ rest.take k <;> by_cases h2 : s = o <;>
            simp [h1, h2, Function.update_apply]

theorem writeOuts_pair (v : ℚ) (o1 o2 : StreamId) (fl : Flows) :
    writeOuts v 2 [o1, o2] fl = (none, Function.update (Function.update fl o1 v) o2 v) := rfl

theorem step_inputCap (d : Dev) (fl : Flows) (op : Op) :
    (Dev.step d fl op).2.1.inputCap = d.inputCap := by
  cases op <;> cases d <;>
    simp only [Dev.step, Dev.inputCap, Mixer.addInput, Mixer.addOutput, Reactor.addInput,
      Reactor.addOutput] <;> split <;> rfl

theorem step_outputCap (d : Dev) (fl : Flows) (op : Op) :
    (Dev.step d fl op).2.1.outputCap = d.outputCap := by
  cases op <;> cases d <;>
    simp only [Dev.step, Dev.outputCap, Mixer.addInput, Mixer.addOutput, Reactor.addInput,
      Reactor.addOutput] <;> split <;> rfl

theorem step_update_lists (d : Dev) (fl : Flows) :
    (Dev.step d fl Op.update).2.1 = d := by
  cases d <;> rfl

theorem step_addInput_lists (d : Dev) (fl : Flows) (s : StreamId)
    (h : (Dev.step d fl (Op.addInput s)).1 = none) :
    (Dev.step d fl (Op.addInput s)).2.1.inputsList = d.inputsList ++ [s] ∧
    (Dev.step d fl (Op.addInput s)).2.1.outputsList = d.outputsList := by
  cases d with
  | mixer m =>
      revert h
      simp only [Dev.step, Mixer.addInput, Dev.inputsList, Dev.outputsList]
      split <;> simp
  | reactor rx =>
      revert h
      simp only [Dev.step, Reactor.addInput, Dev.inputsList, Dev.outputsList]
      split <;> simp

theorem step_addOutput_lists (d : Dev) (fl : Flows) (s : StreamId)
    (h : (Dev.step d fl (Op.addOutput s)).1 = none) :
    (Dev.step d fl (Op.addOutput s)).2.1.outputsList = d.outputsList ++ [s] ∧
    (Dev.step d fl (Op.addOutput s)).2.1.inputsList = d.inputsList := by
  cases d with
  | mixer m =>
      revert h
      simp only [Dev.step, Mixer.addOutput, Dev.inputsList, Dev.outputsList]
      split <;> simp
  | reactor rx =>
      revert h
      simp only [Dev.step, Reactor.addOutput, Dev.inputsList, Dev.outputsList]
      split <;> simp

/-- Capacity bounds that fit a C++ int and are non-negative; under these the
int to size_t conversion in the guards is the identity. -/
def capsOK (d : Dev) : Prop :=
  0 ≤ d.inputCap ∧ d.inputCap < 2 ^ 64 ∧ 0 ≤ d.outputCap ∧ d.outputCap < 2 ^ 64

theorem toSizeT_of_nonneg (n : Int) (h0 : 0 ≤ n) (h1 : n < 2 ^ 64) :
    toSizeT n = n.toNat := by
  unfold toSizeT
  rw [Int.emod_eq_of_lt h0 h1]

theorem length_le_of_guard (len : Nat) (cap : Int) (h0 : 0 ≤ cap) (h1 : cap < 2 ^ 64)
    (hle : (len : Int) ≤ cap) (hne : len ≠ toSizeT cap) : ((len + 1 : Nat) : Int) ≤ cap := by
  rw [toSizeT_of_nonneg cap h0 h1] at hne
  omega

theorem step_devInv (d : Dev) (fl : Flows) (op : Op) (hc : capsOK d) (h : devInv d) :
    devInv (Dev.step d fl op).2.1 := by
  obtain ⟨hc1, hc2, hc3, hc4⟩ := hc
  obtain ⟨h1, h2⟩ := h
  cases op with
  | update =>
      rw [step_update_lists]
      exact ⟨h1, h2⟩
  | addInput s =>
      cases d with
      | mixer m =>
          simp only [Dev.inputsList, Dev.outputsList, Dev.inputCap, Dev.outputCap]
            at h1 h2 hc1 hc2 hc3 hc4
          by_cases hg : m.inputs.length = toSizeT m.inputsCount
          · simp only [Dev.step, Mixer.addInput, if_pos hg]
            exact ⟨h1, h2⟩
          · simp only [Dev.step, Mixer.addInput, if_neg hg, devInv, Dev.inputsList,
              Dev.outputsList, Dev.inputCap, Dev.outputCap, List.length_append,
              List.length_cons, List.length_nil]
            have key := length_le_of_guard m.inputs.length m.inputsCount hc1 hc2 h1 hg
            exact ⟨by simpa using key, h2⟩
      | reactor rx =>
          simp only [Dev.inputsList, Dev.outputsList, Dev.inputCap, Dev.outputCap]
            at h1 h2 hc1 hc2 hc3 hc4
          by_cases hg : rx.inputs.length < toSizeT rx.inputAmount
          · have hts : toSizeT rx.inputAmount = rx.inputAmount.toNat :=
              toSizeT_of_nonneg rx.inputAmount hc1 hc2
            rw [hts] at hg
            simp only [Dev.step, Reactor.addInput, hts, if_pos hg, devInv, Dev.inputsList,
              Dev.outputsList, Dev.inputCap, Dev.outputCap, List.length_append,
              List.length_cons, List.length_nil]
            exact ⟨by omega, h2⟩
          · simp only [Dev.step, Reactor.addInput, if_neg hg]
            exact ⟨h1, h2⟩
  | addOutput s =>
      cases d with
      | mixer m =>
          simp only [Dev.inputsList, Dev.outputsList, Dev.inputCap, Dev.outputCap]
            at h1 h2 hc1 hc2 hc3 hc4
          by_cases hg : m.outputs.length = toSizeT MIXER_OUTPUTS
          · simp only [Dev.step, Mixer.addOutput, if_pos hg]
            exact ⟨h1, h2⟩
          · simp only [Dev.step, Mixer.addOutput, if_neg hg, devInv, Dev.inputsList,
              Dev.outputsList, Dev.inputCap, Dev.outputCap, List.length_append,
              List.length_cons, List.length_nil]
            have key := length_le_of_guard m.outputs.length MIXER_OUTPUTS hc3 hc4 h2 hg
            exact ⟨h1, by simpa using key⟩
      | reactor rx =>
          simp only [Dev.inputsList, Dev.outputsList, Dev.inputCap, Dev.outputCap]
            at h1 h2 hc1 hc2 hc3 hc4
          by_cases hg : rx.outputs.length < toSizeT rx.outputAmount
          · have hts : toSizeT rx.outputAmount = rx.outputAmount.toNat :=
              toSizeT_of_nonneg rx.outputAmount hc3 hc4
            rw [hts] at hg
            simp only [Dev.step, Reactor.addOutput, hts, if_pos hg, devInv, Dev.inputsList,
              Dev.outputsList, Dev.inputCap, Dev.outputCap, List.length_append,
              List.length_cons, List.length_nil]
            exact ⟨h1, by omega⟩
          · simp only [Dev.step, Reactor.addOutput, if_neg hg]
            exact ⟨h1, h2⟩

theorem run_devInv (ops : List Op) (d : Dev) (fl : Flows) (hc : capsOK d) (h : devInv d) :
    devInv (Dev.run d fl ops).2.1 := by
  induction ops generalizing d fl with
  | nil => exact h
  | cons op rest ih =>
      simp only [Dev.run]
      refine ih _ _ ?_ (step_devInv d fl op hc h)
      unfold capsOK at hc ⊢
      rw [step_inputCap, step_outputCap]
      exact hc

theorem run_lists (ops : List Op) (d : Dev) (fl : Flows)
    (h : ∀ e ∈ (Dev.run d fl ops).1, e = none) :
    (Dev.run d fl ops).2.1.inputsList = d.inputsList ++ opsInputs ops ∧
    (Dev.run d fl ops).2.1.outputsList = d.outputsList ++ opsOutputs ops := by
  induction ops generalizing d fl with
  | nil => simp [Dev.run, opsInputs, opsOutputs]
  | cons op rest ih =>
      simp only [Dev.run, List.mem_cons] at h
      have hhead : (Dev.step d fl op).1 = none := h _ (Or.inl rfl)
      have htail := ih (Dev.step d fl op).2.1 (Dev.step d fl op).2.2
        (fun e he => h e (Or.inr he))
      simp only [Dev.run]
      cases op with
      | addInput s =>
          obtain ⟨hi, ho⟩ := step_addInput_lists d fl s hhead
          rw [htail.1, htail.2, hi, ho]
          simp [opsInputs, opsOutputs]
      | addOutput s =>
          obtain ⟨ho, hi⟩ := step_addOutput_lists d fl s hhead
          rw [htail.1, htail.2, hi, ho]
          simp [opsInputs, opsOutputs]
      | update =>
          rw [htail.1, htail.2, step_update_lists]
          simp [opsInputs, opsOutputs]

/-- A fully wired double reactor: input stream 1, output streams 2 and 3. -/
def rxC1 : Reactor := { inputAmount := 1, outputAmount := 2, inputs := [1], outputs := [2, 3] }

/-- Flows giving stream 1 the mass flow 10 and every other stream 0. -/
def flC1 : Flows := fun s => if s = 1 then 10 else 0

/-- Claim C1: on a fully wired double reactor with input flow 10 the spec
demands outputs 5 and 5 summing to the input. The updateOutputs body of
src/device.cpp computes the split factor as the integer quotient 1/2 = 0, so
both outputs are set to 0 and the sum 0 differs from the input 10; the body
of src/unnamed/part_000 divides in floating point and yields 5 and 5, summing
exactly to the input, as the claim states. -/
theorem C1_double_reactor_split :
    (Reactor.updateOutputsDevCpp rxC1 flC1).1 = none ∧
    (Reactor.updateOutputsDevCpp rxC1 flC1).2 2 = 0 ∧
    (Reactor.updateOutputsDevCpp rxC1 flC1).2 3 = 0 ∧
    (Reactor.updateOutputsDevCpp rxC1 flC1).2 2 + (Reactor.updateOutputsDevCpp rxC1 flC1).2 3 ≠
      flC1 1 ∧
    (Reactor.updateOutputs rxC1 flC1).1 = none ∧
    (Reactor.updateOutputs rxC1 flC1).2 2 = 5 ∧
    (Reactor.updateOutputs rxC1 flC1).2 3 = 5 ∧
    (Reactor.updateOutputs rxC1 flC1).2 2 + (Reactor.updateOutputs rxC1 flC1).2 3 = flC1 1 := by
  rw [show Reactor.updateOutputsDevCpp rxC1 flC1 =
        writeOuts (flC1 1 * (((1 / (2 : Int) : Int)) : ℚ)) 2 [2, 3] flC1 from rfl,
      show Reactor.updateOutputs rxC1 flC1 =
        writeOuts (flC1 1 * (1 / ((2 : Int) : ℚ))) 2 [2, 3] flC1 from rfl,
      writeOuts_pair, writeOuts_pair]
  norm_num [Function.update_apply, flC1]

/-- Claim C2: the constructor of src/unnamed/part_000 fixes inputAmount = 1
and outputAmount = 2 or 1 according to the flag, as the claim states; the
constructor of src/device.cpp assigns inputAmount twice in the single-output
case and never assigns outputAmount (recorded as none: the field stays
indeterminate). -/
theorem C2_reactor_ctor_amounts :
    Reactor.initDevCpp true = (some 1, some 2) ∧
    Reactor.initDevCpp false = (some 1, none) ∧
    (Reactor.init true).inputAmount = 1 ∧ (Reactor.init true).outputAmount = 2 ∧
    (Reactor.init false).inputAmount = 1 ∧ (Reactor.init false).outputAmount = 1 :=
  ⟨rfl, rfl, rfl, rfl, rfl, rfl⟩

/-- Claim C3: a Mixer with at least one output succeeds, writes the sum of
the input flows divided by the number of outputs to every output stream, and
with no inputs connected that value is 0, with no error raised. -/
theorem C3_mixer_update_law (d : Mixer) (fl : Flows) (h : d.outputs ≠ []) :
    (Mixer.updateOutputs d fl).1 = none ∧
    (∀ o ∈ d.outputs, (Mixer.updateOutputs d fl).2 o =
      (d.inputs.map fl).sum / (d.outputs.length : ℚ)) ∧
    (d.inputs = [] → ∀ o ∈ d.outputs, (Mixer.updateOutputs d fl).2 o = 0) := by
  refine ⟨?_, ?_, ?_⟩
  · simp [Mixer.updateOutputs, if_neg h]
  · intro o ho
    simp [Mixer.updateOutputs, if_neg h, writeAll_apply, ho]
  · intro hin o ho
    simp [Mixer.updateOutputs, if_neg h, writeAll_apply, ho, hin]

/-- A mixer of capacity 2 wired to inputs 1, 2 and output 3. -/
def mxC3 : Mixer := { inputsCount := 2, inputs := [1, 2], outputs := [3] }

/-- Flows giving stream 1 the value 10, stream 2 the value 5, all others 0. -/
def flC3 : Flows := fun s => if s = 1 then 10 else if s = 2 then 5 else 0

/-- Witness for C3: the wired mixer with inputs 10 and 5. -/
theorem C3_mixer_update_law_witness :
    mxC3.outputs ≠ [] ∧
    ((Mixer.updateOutputs mxC3 flC3).1 = none ∧
     (∀ o ∈ mxC3.outputs, (Mixer.updateOutputs mxC3 flC3).2 o =
       (mxC3.inputs.map flC3).sum / (mxC3.outputs.length : ℚ)) ∧
     (mxC3.inputs = [] → ∀ o ∈ mxC3.outputs, (Mixer.updateOutputs mxC3 flC3).2 o = 0)) :=
  ⟨by decide, C3_mixer_update_law mxC3 flC3 (by decide)⟩

/-- Claim C4: a Reactor updateOutputs call with the input slot unconnected,
or with fewer connected outputs than outputAmount, raises an error (the
std::out_of_range of vector::at) in both copies of the body, instead of
silently doing nothing. -/
theorem C4_reactor_update_missing_connection (d : Reactor) (fl : Flows)
    (h : d.inputs = [] ∨ d.outputs.length < d.outputAmount.toNat) :
    (∃ e, (Reactor.updateOutputs d fl).1 = some e) ∧
    (∃ e, (Reactor.updateOutputsDevCpp d fl).1 = some e) := by
  cases hh : d.inputs.head? with
  | none =>
      constructor <;>
        exact ⟨DevErr.outOfRange, by
          simp [Reactor.updateOutputs, Reactor.updateOutputsDevCpp, hh]⟩
  | some i0 =>
      have hin : d.inputs ≠ [] := by
        intro hnil
        rw [hnil] at hh
        simp at hh
      have hlen : d.outputs.length < d.outputAmount.toNat := h.resolve_left (by simpa using hin)
      constructor
      · exact ⟨DevErr.outOfRange, by
          simp only [Reactor.updateOutputs, hh]
          exact writeOuts_fst_eq_some _ _ _ _ hlen⟩
      · exact ⟨DevErr.outOfRange, by
          simp only [Reactor.updateOutputsDevCpp, hh]
          exact writeOuts_fst_eq_some _ _ _ _ hlen⟩

/-- A double reactor with its single input wired but only one of the two
required outputs. -/
def rxC4 : Reactor := { inputAmount := 1, outputAmount := 2, inputs := [1], outputs := [2] }

/-- The all-zero flow assignment. -/
def flZero : Flows := fun _ => 0

/-- Witness for C4: the partially wired double reactor errors. -/
theorem C4_reactor_update_missing_connection_witness :
    (rxC4.inputs = [] ∨ rxC4.outputs.length < rxC4.outputAmount.toNat) ∧
    ((∃ e, (Reactor.updateOutputs rxC4 flZero).1 = some e) ∧
     (∃ e, (Reactor.updateOutputsDevCpp rxC4 flZero).1 = some e)) :=
  ⟨Or.inr (by decide), C4_reactor_update_missing_connection rxC4 flZero (Or.inr (by decide))⟩

/-- Claim C5: a Mixer updateOutputs call with zero outputs configured raises
the std::string error with exactly the message of the source. -/
theorem C5_mixer_no_outputs_error (d : Mixer) (fl : Flows) (h : d.outputs = []) :
    (Mixer.updateOutputs d fl).1 = some (DevErr.str "Should set outputs before update") := by
  simp [Mixer.updateOutputs, h]

/-- A mixer with one input wired and no output. -/
def mxC5 : Mixer := { inputsCount := 1, inputs := [4], outputs := [] }

/-- Witness for C5: the outputless mixer raises the message. -/
theorem C5_mixer_no_outputs_error_witness :
    mxC5.outputs = [] ∧
    (Mixer.updateOutputs mxC5 flZero).1 = some (DevErr.str "Should set outputs before update") :=
  ⟨rfl, C5_mixer_no_outputs_error mxC5 flZero rfl⟩

/-- Claim C7: at a met capacity bound the generic Device guard used by
Reactor throws the char pointer literals INPUT STREAM LIMIT! and OUTPUT
STREAM LIMIT!, while the overriding Mixer guard throws the std::string
values Too much inputs and Too much outputs. -/
theorem C7_capacity_error_messages (dm dm2 : Mixer) (dr dr2 : Reactor) (s : StreamId)
    (h1 : dm.inputs.length = toSizeT dm.inputsCount)
    (h2 : dm2.outputs.length = toSizeT MIXER_OUTPUTS)
    (h3 : ¬ dr.inputs.length < toSizeT dr.inputAmount)
    (h4 : ¬ dr2.outputs.length < toSizeT dr2.outputAmount) :
    (Mixer.addInput dm s).1 = some (DevErr.str "Too much inputs") ∧
    (Mixer.addOutput dm2 s).1 = some (DevErr.str "Too much outputs") ∧
    (Reactor.addInput dr s).1 = some (DevErr.cstr "INPUT STREAM LIMIT!") ∧
    (Reactor.addOutput dr2 s).1 = some (DevErr.cstr "OUTPUT STREAM LIMIT!") := by
  refine ⟨?_, ?_, ?_, ?_⟩ <;>
    simp [Mixer.addInput, Mixer.addOutput, Reactor.addInput, Reactor.addOutput, h1, h2, h3, h4]

/-- A mixer of capacity 1 whose single input slot is already taken. -/
def mxC7i : Mixer := { inputsCount := 1, inputs := [9], outputs := [] }

/-- A mixer whose single output slot is already taken. -/
def mxC7o : Mixer := { inputsCount := 1, inputs := [], outputs := [8] }

/-- A single reactor whose input slot is already taken. -/
def rxC7i : Reactor := { inputAmount := 1, outputAmount := 1, inputs := [9], outputs := [] }

/-- A single reactor whose output slot is already taken. -/
def rxC7o : Reactor := { inputAmount := 1, outputAmount := 1, inputs := [], outputs := [8] }

/-- Witness for C7: all four full devices raise their variant-specific
message on a further add. -/
theorem C7_capacity_error_messages_witness :
    (mxC7i.inputs.length = toSizeT mxC7i.inputsCount ∧
     mxC7o.outputs.length = toSizeT MIXER_OUTPUTS ∧
     ¬ rxC7i.inputs.length < toSizeT rxC7i.inputAmount ∧
     ¬ rxC7o.outputs.length < toSizeT rxC7o.outputAmount) ∧
    ((Mixer.addInput mxC7i 5).1 = some (DevErr.str "Too much inputs") ∧
     (Mixer.addOutput mxC7o 5).1 = some (DevErr.str "Too much outputs") ∧
     (Reactor.addInput rxC7i 5).1 = some (DevErr.cstr "INPUT STREAM LIMIT!") ∧
     (Reactor.addOutput rxC7o 5).1 = some (DevErr.cstr "OUTPUT STREAM LIMIT!")) :=
  ⟨⟨by decide, by decide, by decide, by decide⟩,
   C7_capacity_error_messages mxC7i mxC7o rxC7i rxC7o 5
     (by decide) (by decide) (by decide) (by decide)⟩

/-- Claim C10: when a Mixer updateOutputs call fails for lack of outputs, the
interface step raises the error, leaves the device untouched and returns the
stream flows exactly as given: the input sum is computed into a local and
discarded, no setMassFlow runs before the throw. -/
theorem C10_mixer_failed_update_atomic (d : Mixer) (fl : Flows) (h : d.outputs = []) :
    Dev.step (Dev.mixer d) fl Op.update =
      (some (DevErr.str "Should set outputs before update"), Dev.mixer d, fl) := by
  simp [Dev.step, Dev.updateOutputs, Mixer.updateOutputs, h]

/-- A mixer with two inputs wired and no output. -/
def mxC10 : Mixer := { inputsCount := 2, inputs := [1, 2], outputs := [] }

/-- Witness for C10: the failing update leaves the flows map untouched. -/
theorem C10_mixer_failed_update_atomic_witness :
    mxC10.outputs = [] ∧
    Dev.step (Dev.mixer mxC10) flC3 Op.update =
      (some (DevErr.str "Should set outputs before update"), Dev.mixer mxC10, flC3) :=
  ⟨rfl, C10_mixer_failed_update_atomic mxC10 flC3 rfl⟩

instance (d : Dev) : Decidable (capsOK d) := by
  unfold capsOK
  infer_instance

/-- Claim C6 as stated fails on the code: a Mixer constructed with input
capacity -1 (a legal int argument) starts with 0 connected inputs, which
already exceeds the bound -1, and addInput still appends because the guard
compares the size with the int converted to size_t, which turns -1 into
2 to the 64 minus 1; so the bound is neither respected nor enforced. -/
theorem C6_invariant_counterexample :
    ¬ devInv (Dev.mixer (Mixer.init (-1))) ∧
    (Dev.step (Dev.mixer (Mixer.init (-1))) flZero (Op.addInput 7)).1 = none ∧
    ¬ devInv (Dev.step (Dev.mixer (Mixer.init (-1))) flZero (Op.addInput 7)).2.1 := by
  refine ⟨?_, ?_, ?_⟩ <;> decide

/-- Claim C6 amended: for every Mixer constructed with a non-negative input
capacity (representable as a C++ int) and every Reactor, and for every
sequence of interface calls by a caller that catches failures and goes on,
the connected inputs never outnumber the input capacity and the connected
outputs never outnumber the output capacity, in every reachable state. -/
theorem C6_capacity_invariant (d0 : Dev)
    (h0 : (∃ c, 0 ≤ c ∧ c < 2 ^ 31 ∧ d0 = Dev.mixer (Mixer.init c)) ∨
          (∃ b, d0 = Dev.reactor (Reactor.init b)))
    (fl : Flows) (ops : List Op) :
    devInv (Dev.run d0 fl ops).2.1 := by
  have hc : capsOK d0 ∧ devInv d0 := by
    rcases h0 with ⟨c, hge, hlt, rfl⟩ | ⟨b, rfl⟩
    · constructor
      · unfold capsOK
        simp only [Dev.inputCap, Dev.outputCap, Mixer.init, MIXER_OUTPUTS]
        omega
      · unfold devInv
        simp only [Dev.inputsList, Dev.outputsList, Dev.inputCap, Dev.outputCap,
          Mixer.init, MIXER_OUTPUTS, List.length_nil]
        omega
    · cases b <;> exact ⟨by decide, by decide⟩
  exact run_devInv ops d0 fl hc.1 hc.2

/-- Witness for C6 amended: a capacity-2 mixer driven through adds (one of
them beyond capacity) and an update keeps the invariant. -/
theorem C6_capacity_invariant_witness :
    devInv (Dev.run (Dev.mixer (Mixer.init 2)) flC3
      [Op.addInput 1, Op.addInput 2, Op.addOutput 3, Op.update, Op.addInput 4]).2.1 :=
  C6_capacity_invariant (Dev.mixer (Mixer.init 2)) (Or.inl ⟨2, by decide, by decide, rfl⟩)
    flC3 [Op.addInput 1, Op.addInput 2, Op.addOutput 3, Op.update, Op.addInput 4]

/-- Claim C8: after any sequence of interface calls that all succeed,
starting from a device with no connections, getInputs and getOutputs return
exactly the streams that were added, in connection order. The source returns
the vectors by value, so the returned snapshots are independent copies; in
this embedding the getters are pure projections of the device state. -/
theorem C8_getters_round_trip (d : Dev) (fl : Flows) (ops : List Op)
    (h0i : d.getInputs = []) (h0o : d.getOutputs = [])
    (hok : ∀ e ∈ (Dev.run d fl ops).1, e = none) :
    (Dev.run d fl ops).2.1.getInputs = opsInputs ops ∧
    (Dev.run d fl ops).2.1.getOutputs = opsOutputs ops := by
  obtain ⟨hi, ho⟩ := run_lists ops d fl hok
  simp only [Dev.getInputs, Dev.getOutputs] at h0i h0o ⊢
  rw [hi, ho, h0i, h0o]
  simp

/-- The call sequence of the C8 witness. -/
def opsC8 : List Op := [Op.addInput 1, Op.addOutput 3, Op.addInput 2, Op.update]

/-- Witness for C8: a mixer wired by an interleaved successful sequence. -/
theorem C8_getters_round_trip_witness :
    (Dev.run (Dev.mixer (Mixer.init 2)) flC3 opsC8).2.1.getInputs = opsInputs opsC8 ∧
    (Dev.run (Dev.mixer (Mixer.init 2)) flC3 opsC8).2.1.getOutputs = opsOutputs opsC8 :=
  C8_getters_round_trip (Dev.mixer (Mixer.init 2)) flC3 opsC8 rfl rfl (by decide)

/-- Claim C9: updateOutputs is idempotent given unchanged inputs: if a call
succeeds and the flows of all input streams afterwards equal their flows
before, a second call succeeds and returns exactly the flows left by the
first one, for both device variants. -/
theorem C9_update_idempotent (d : Dev) (fl : Flows)
    (h1 : (Dev.updateOutputs d fl).1 = none)
    (h2 : ∀ s ∈ d.inputsList, (Dev.updateOutputs d fl).2 s = fl s) :
    Dev.updateOutputs d (Dev.updateOutputs d fl).2 = (none, (Dev.updateOutputs d fl).2) := by
  cases d with
  | mixer m =>
      simp only [Dev.updateOutputs, Dev.inputsList] at h1 h2 ⊢
      have hne : m.outputs ≠ [] := by
        intro hnil
        simp [Mixer.updateOutputs, hnil] at h1
      simp only [Mixer.updateOutputs, if_neg hne] at h2 ⊢
      have hmap : m.inputs.map
          (writeAll m.outputs ((m.inputs.map fl).sum / (m.outputs.length : ℚ)) fl) =
          m.inputs.map fl :=
        List.map_congr_left h2
      rw [hmap]
      refine congrArg (Prod.mk none) ?_
      funext s
      rw [writeAll_apply, writeAll_apply]
      by_cases hs : s ∈ m.outputs
      · rw [if_pos hs, if_pos hs]
      · rw [if_neg hs]
  | reactor rx =>
      simp only [Dev.updateOutputs, Dev.inputsList] at h1 h2 ⊢
      cases hh : rx.inputs.head? with
      | none =>
          rw [Reactor.updateOutputs] at h1
          rw [hh] at h1
          simp at h1
      | some i0 =>
          have hi0 : i0 ∈ rx.inputs := List.mem_of_mem_head? hh
          simp only [Reactor.updateOutputs, hh] at h1 h2 ⊢
          have hn : rx.outputAmount.toNat ≤ rx.outputs.length :=
            (writeOuts_fst_eq_none _ _ _ _).1 h1
          have hfli0 := h2 i0 hi0
          rw [hfli0]
          have hfst := (writeOuts_fst_eq_none (fl i0 * (1 / (rx.outputAmount : ℚ)))
            rx.outputAmount.toNat rx.outputs
            ((writeOuts (fl i0 * (1 / (rx.outputAmount : ℚ)))
              rx.outputAmount.toNat rx.outputs fl).2)).2 hn
          have hsnd : (writeOuts (fl i0 * (1 / (rx.outputAmount : ℚ)))
              rx.outputAmount.toNat rx.outputs
              ((writeOuts (fl i0 * (1 / (rx.outputAmount : ℚ)))
                rx.outputAmount.toNat rx.outputs fl).2)).2 =
              (writeOuts (fl i0 * (1 / (rx.outputAmount : ℚ)))
                rx.outputAmount.toNat rx.outputs fl).2 := by
            funext s
            rw [writeOuts_snd_apply _ _ _ _ hn]
            by_cases hs : s ∈ rx.outputs.take rx.outputAmount.toNat
            · rw [if_pos hs, writeOuts_snd_apply _ _ _ _ hn, if_pos hs]
            · rw [if_neg hs]
          exact Prod.ext hfst hsnd

/-- The mixer of the C9 witness: inputs 1 and 2, output 3, capacity 2. -/
def dC9 : Dev := Dev.mixer { inputsCount := 2, inputs := [1, 2], outputs := [3] }

/-- Witness for C9: a second update on the wired mixer reproduces the state
left by the first one. -/
theorem C9_update_idempotent_witness :
    Dev.updateOutputs dC9 (Dev.updateOutputs dC9 flC3).2 =
      (none, (Dev.updateOutputs dC9 flC3).2) :=
  C9_update_idempotent dC9 flC3 (by decide)
    (by
      intro s hs
      fin_cases hs <;>
        simp [Dev.updateOutputs, Dev.inputsList, dC9, Mixer.updateOutputs, writeAll_apply])

end LabDevice
